/-
Verification of the TODO_Website application (src/main.py): a Flask
task-tracking app with user registration/login and a shared task board.

The embedding models the relational store (Users, Tasks tables with
SQLAlchemy's integer autoincrement primary keys and unique constraints),
the Flask-Login session, flash messages, and each route handler of main.py.
-/
import Mathlib

deriving instance DecidableEq for Except

namespace Todo

/-- Modelled from the spec: werkzeug's `generate_password_hash` /
`check_password_hash` (an external library, not in src/). Per §4.1 the hash
string "encodes algorithm identifier, salt, and digest into one string";
we model that encoding as a structure. -/
structure PWHash where
  method : String
  salt : Nat
  digest : Nat
deriving Repr, DecidableEq

/-- Modelled from the spec: the PBKDF2-SHA256 digest of (salt, password).
The cryptographic details are irrelevant to the claims; only
"verify recomputes and compares" (§4.1) matters, so any fixed computable
function of salt and password is a faithful model. -/
def pbkdf2Digest (salt : Nat) (password : String) : Nat :=
  password.data.foldl (fun h c => h * 131 + c.toNat) (salt + 1)

/-- werkzeug `generate_password_hash(password, method='pbkdf2:sha256',
salt_length=8)` (main.py line 128): the per-call random salt is passed
explicitly as a parameter. -/
def generate_password_hash (salt : Nat) (password : String) : PWHash :=
  { method := "pbkdf2:sha256", salt := salt, digest := pbkdf2Digest salt password }

/-- werkzeug `check_password_hash(stored, password)` (main.py line 161):
recomputes the digest from the stored salt and compares. -/
def check_password_hash (stored : PWHash) (password : String) : Bool :=
  stored.digest == pbkdf2Digest stored.salt password

/-- The `Users` table row (main.py lines 40-53): id (integer primary key),
email (unique), password (stored hash), name. -/
structure User where
  id : Nat
  email : String
  password : PWHash
  name : String
deriving Repr, DecidableEq

/-- The `Tasks` table row (main.py lines 55-68): id (integer primary key),
owner_id (nullable foreign key to Users.id), name (unique, not null),
category (not null, default "To Do"). -/
structure Task where
  id : Nat
  owner_id : Option Nat
  name : String
  category : String
deriving Repr, DecidableEq

/-- The relational store: the two tables in insertion order, plus the next
autoincrement primary key for each (system-assigned identifiers). -/
structure DB where
  users : List User
  tasks : List Task
  nextUserId : Nat
  nextTaskId : Nat
deriving Repr, DecidableEq

/-- Per-request application state: the store, the Flask-Login session
(the authenticated user's id, if any), and the flashed messages. -/
structure AppState where
  db : DB
  sessionUser : Option Nat
  flashes : List String
deriving Repr, DecidableEq

/-- The spec's error taxonomy (§7). In main.py, `DuplicateNameError` and
`NotFoundError` conditions surface as unhandled faults (the unique-name
constraint violation, and the None dereference in update/delete on a
missing id — §4.4, §9); the spec names those failures as below. -/
inductive Err where
  | DuplicateEmailError
  | DuplicateNameError
  | UnknownEmailError
  | InvalidPasswordError
  | NotFoundError
deriving Repr, DecidableEq

/-- A handler's HTTP result: a redirect or a rendered template. -/
inductive Response where
  | redirect (target : String)
  | render (template : String)
deriving Repr, DecidableEq

/-- SQL `ORDER BY Task.owner_id` comparison. Modelled from the spec:
ascending on the owner identifier; a NULL owner sorts first (the
engine's ASC NULLS FIRST default). -/
def ownerLe (a b : Option Nat) : Bool :=
  match a, b with
  | none, _ => true
  | some _, none => false
  | some x, some y => x ≤ y

/-- `Task.query.order_by(Task.owner_id).all()` (main.py line 78).
Modelled from the spec: a stable ascending sort on owner_id — §4.4:
"ordered by owner identifier (ties broken by insertion/creation order)". -/
def list_all_ordered_by_owner (db : DB) : List Task :=
  db.tasks.mergeSort (fun a b => ownerLe a.owner_id b.owner_id)

/-- `GET /` handler `home` (main.py lines 75-80): queries all tasks ordered
by owner and renders the board; the `db.session.commit()` has no pending
writes, so the state is returned unchanged. -/
def home (st : AppState) : List Task × AppState :=
  (list_all_ordered_by_owner st.db, st)

/-- `POST /add` handler `add_task` (main.py lines 83-93) with the form's
task name and the resolved `current_user.id` as arguments: inserts a new
Task with the default category "To Do" and commits. The `unique=True`
constraint on Task.name (line 63) makes the insert fail when any task —
regardless of owner — already has that name; the spec names this failure
`DuplicateNameError` (§4.4, §7). -/
def add_task (task_name : String) (owner : Nat) (st : AppState) :
    Except Err (Response × AppState) :=
  if st.db.tasks.any (fun t => t.name == task_name) then
    .error .DuplicateNameError
  else
    .ok (.redirect "home",
      { st with db := { st.db with
          tasks := st.db.tasks ++
            [{ id := st.db.nextTaskId, owner_id := some owner,
               name := task_name, category := "To Do" }],
          nextTaskId := st.db.nextTaskId + 1 } })

/-- The two-branch category transition inside `update_task`
(main.py lines 100-104): `if category == "To Do": "DOING" else: "DONE"`. -/
def advanceCategory (c : String) : String :=
  if c == "To Do" then "DOING" else "DONE"

/-- Update the first list element satisfying `p` (SQLAlchemy
`filter_by(...).first()` followed by an in-place mutation and commit). -/
def updateFirst (p : α → Bool) (f : α → α) : List α → List α
  | [] => []
  | x :: xs => if p x then f x :: xs else x :: updateFirst p f xs

/-- `/update/<task_id>` handler `update_task` (main.py lines 96-106):
`Task.query.filter_by(id=task_id).first()` then the two-branch category
update. When no task has that id, `first()` is None and the source
dereferences it — an unhandled fault the spec names `NotFoundError`
(§4.4, §9); the store is not touched in that case. -/
def update_task (task_id : Nat) (st : AppState) :
    Except Err (Response × AppState) :=
  match st.db.tasks.find? (fun t => t.id == task_id) with
  | none => .error .NotFoundError
  | some _ =>
    .ok (.redirect "home",
      { st with db := { st.db with
          tasks := updateFirst (fun t => t.id == task_id)
            (fun t => { t with category := advanceCategory t.category })
            st.db.tasks } })

/-- `GET /delete/<task_id>` handler `delete_task` (main.py lines 109-115):
`Task.query.get(task_id)` then delete and commit. When no task has that id,
`get` is None and `db.session.delete(None)` faults — the spec names this
`NotFoundError` (§4.4, §9); the store is not touched in that case. -/
def delete_task (task_id : Nat) (st : AppState) :
    Except Err (Response × AppState) :=
  match st.db.tasks.find? (fun t => t.id == task_id) with
  | none => .error .NotFoundError
  | some _ =>
    .ok (.redirect "home",
      { st with db := { st.db with
          tasks := st.db.tasks.eraseP (fun t => t.id == task_id) } })

/-- `POST /register` handler `register` (main.py lines 118-144) with the
form fields and the per-call random salt as arguments. If a user with the
email exists: flash the duplicate-email notice and re-render the form.
Otherwise: hash the password, insert the user, log the session in as that
user, redirect home. -/
def register (salt : Nat) (email password name : String) (st : AppState) :
    Response × AppState :=
  match st.db.users.find? (fun u => u.email == email) with
  | some _ =>
    (.render "register.html",
     { st with flashes := st.flashes ++
         ["You've already signed up with that email, log in instead!"] })
  | none =>
    let newUser : User :=
      { id := st.db.nextUserId, email := email,
        password := generate_password_hash salt password, name := name }
    (.redirect "home",
     { st with
        db := { st.db with users := st.db.users ++ [newUser],
                           nextUserId := st.db.nextUserId + 1 },
        sessionUser := some newUser.id })

/-- The authentication decision of the `login` handler (main.py lines
154-166): look the user up by email; `UnknownEmailError` when none matches,
`InvalidPasswordError` when the stored hash does not verify, otherwise the
matched user (§4.5 names this service `authenticate`). -/
def authenticate (db : DB) (email password : String) : Except Err User :=
  match db.users.find? (fun u => u.email == email) with
  | none => .error .UnknownEmailError
  | some user =>
    if check_password_hash user.password password then .ok user
    else .error .InvalidPasswordError

/-- `POST /login` handler `login` (main.py lines 147-167): on unknown email
flash "That email does not exist, please try again." and redirect back to
the login view; on a failed hash check flash "Password incorrect, please
try again!" and redirect back; on success `login_user` and redirect home. -/
def login (email password : String) (st : AppState) : Response × AppState :=
  match authenticate st.db email password with
  | .error .UnknownEmailError =>
    (.redirect "login",
     { st with flashes := st.flashes ++
         ["That email does not exist, please try again."] })
  | .error _ =>
    (.redirect "login",
     { st with flashes := st.flashes ++
         ["Password incorrect, please try again!"] })
  | .ok user =>
    (.redirect "home", { st with sessionUser := some user.id })

/-- `GET /logout` handler (main.py lines 169-173). -/
def logout (st : AppState) : Response × AppState :=
  (.redirect "home", { st with sessionUser := none })

/-- A task-mutating request, for reasoning about request sequences. -/
inductive Op where
  | add (task_name : String) (owner : Nat)
  | advance (task_id : Nat)
  | delete (task_id : Nat)
deriving Repr, DecidableEq

/-- The state after serving one task request: the handler's new state on
success, the unchanged state when the request fails. -/
def applyOp (st : AppState) (op : Op) : AppState :=
  match op with
  | .add n o => match add_task n o st with
    | .ok (_, st') => st' | .error _ => st
  | .advance i => match update_task i st with
    | .ok (_, st') => st' | .error _ => st
  | .delete i => match delete_task i st with
    | .ok (_, st') => st' | .error _ => st

/-- The state after serving a sequence of task requests. -/
def runOps (st : AppState) : List Op → AppState
  | [] => st
  | op :: ops => runOps (applyOp st op) ops

/-- The progress order on categories: "To Do" < "DOING" < "DONE". -/
def catRank (c : String) : Nat :=
  if c == "To Do" then 0 else if c == "DOING" then 1 else 2

/-- Well-formedness of the Tasks table maintained by the autoincrement
primary key: ids are pairwise distinct and below the next id. -/
def tasksWf (db : DB) : Prop :=
  (db.tasks.map Task.id).Nodup ∧ ∀ t ∈ db.tasks, t.id < db.nextTaskId

instance (db : DB) : Decidable (tasksWf db) := by
  unfold tasksWf; infer_instance

/-- A concrete registered user, for instantiating theorems. -/
def sampleUserA : User :=
  { id := 1, email := "a@b", password := generate_password_hash 3 "right",
    name := "A" }

/-- A concrete application state holding `sampleUserA` and no tasks. -/
def sampleState : AppState :=
  { db := { users := [sampleUserA], tasks := [], nextUserId := 2,
            nextTaskId := 1 },
    sessionUser := none, flashes := [] }

/-- A concrete application state holding one task at "To Do". -/
def sampleTaskState : AppState :=
  { db := { users := [], nextUserId := 1, nextTaskId := 2,
            tasks := [{ id := 1, owner_id := some 1, name := "t1",
                        category := "To Do" }] },
    sessionUser := none, flashes := [] }

/-- A concrete empty application state. -/
def emptyState : AppState :=
  { db := { users := [], tasks := [], nextUserId := 1, nextTaskId := 1 },
    sessionUser := none, flashes := [] }

/-! ### Helper lemmas -/

theorem ownerLe_trans (a b c : Option Nat) :
    ownerLe a b → ownerLe b c → ownerLe a c := by
  cases a <;> cases b <;> cases c <;> simp [ownerLe]
  omega

theorem ownerLe_total (a b : Option Nat) : ownerLe a b || ownerLe b a := by
  cases a <;> cases b <;> simp [ownerLe]
  omega

theorem ownerLe_refl (a : Option Nat) : ownerLe a a := by
  cases a <;> simp [ownerLe]

theorem find?_key_unique {α β : Type} [BEq β] [LawfulBEq β] (f : α → β)
    {l : List α} {a : α} (h : (l.map f).Nodup) (ha : a ∈ l) :
    l.find? (fun x => f x == f a) = some a := by
  induction l with
  | nil => cases ha
  | cons x xs ih =>
    simp only [List.map_cons, List.nodup_cons] at h
    rcases List.mem_cons.mp ha with rfl | ha'
    · exact List.find?_cons_of_pos _ (by simp)
    · rw [List.find?_cons_of_neg]
      · exact ih h.2 ha'
      · simp only [beq_iff_eq]
        intro hfx
        exact h.1 (hfx ▸ List.mem_map_of_mem f ha')

theorem filter_key_unique {α β : Type} [BEq β] [LawfulBEq β] (f : α → β)
    {l : List α} {a : α} (h : (l.map f).Nodup) (ha : a ∈ l) :
    l.filter (fun x => f x == f a) = [a] := by
  induction l with
  | nil => cases ha
  | cons x xs ih =>
    simp only [List.map_cons, List.nodup_cons] at h
    rcases List.mem_cons.mp ha with rfl | ha'
    · rw [List.filter_cons_of_pos (by simp), List.filter_eq_nil_iff.mpr]
      intro b hb
      simp only [beq_iff_eq]
      intro hfb
      exact h.1 (hfb ▸ List.mem_map_of_mem f hb)
    · rw [List.filter_cons_of_neg]
      · exact ih h.2 ha'
      · simp only [beq_iff_eq]
        intro hfx
        exact h.1 (hfx ▸ List.mem_map_of_mem f ha')

theorem mem_updateFirst {α : Type} {p : α → Bool} {f : α → α} :
    ∀ {l : List α} {y : α}, y ∈ updateFirst p f l →
      y ∈ l ∨ ∃ x ∈ l, p x ∧ y = f x := by
  intro l
  induction l with
  | nil => intro y hy; cases hy
  | cons x xs ih =>
    intro y hy
    simp only [updateFirst] at hy
    by_cases hp : p x
    · rw [if_pos hp] at hy
      rcases List.mem_cons.mp hy with rfl | hy'
      · exact Or.inr ⟨x, List.mem_cons_self x xs, hp, rfl⟩
      · exact Or.inl (List.mem_cons_of_mem x hy')
    · rw [if_neg hp] at hy
      rcases List.mem_cons.mp hy with rfl | hy'
      · exact Or.inl (List.mem_cons_self y xs)
      · rcases ih hy' with h | ⟨z, hz, hpz, hyz⟩
        · exact Or.inl (List.mem_cons_of_mem x h)
        · exact Or.inr ⟨z, List.mem_cons_of_mem x hz, hpz, hyz⟩

theorem map_updateFirst {α β : Type} (g : α → β) (p : α → Bool) (f : α → α)
    (hf : ∀ x, g (f x) = g x) :
    ∀ l : List α, (updateFirst p f l).map g = l.map g := by
  intro l
  induction l with
  | nil => rfl
  | cons x xs ih =>
    simp only [updateFirst]
    by_cases hp : p x
    · rw [if_pos hp]; simp [hf x]
    · rw [if_neg hp]; simp [ih]

theorem catRank_le_two (c : String) : catRank c ≤ 2 := by
  unfold catRank
  split
  · omega
  · split <;> omega

theorem catRank_advance_mono (c : String) :
    catRank c ≤ catRank (advanceCategory c) := by
  unfold advanceCategory
  by_cases h : c == "To Do"
  · rw [if_pos h, show catRank c = 0 from by unfold catRank; rw [if_pos h]]
    exact Nat.zero_le _
  · rw [if_neg h]
    exact le_trans (catRank_le_two c) (by decide)

/-- One request can only move a surviving task's category forward; any task
not traceable to the pre-state is newly created, with a fresh id. -/
theorem applyOp_back (st : AppState) (op : Op) :
    ∀ t' ∈ (applyOp st op).db.tasks,
      (∃ t ∈ st.db.tasks, t.id = t'.id ∧
        catRank t.category ≤ catRank t'.category) ∨
      st.db.nextTaskId ≤ t'.id := by
  intro t' ht'
  cases op with
  | add n o =>
    simp only [applyOp, add_task] at ht'
    by_cases hdup : st.db.tasks.any (fun t => t.name == n)
    · rw [if_pos hdup] at ht'
      exact Or.inl ⟨t', ht', rfl, le_refl _⟩
    · rw [if_neg hdup] at ht'
      simp only [List.mem_append, List.mem_singleton] at ht'
      rcases ht' with h | rfl
      · exact Or.inl ⟨t', h, rfl, le_refl _⟩
      · exact Or.inr (le_refl _)
  | advance i =>
    simp only [applyOp, update_task] at ht'
    cases hfind : st.db.tasks.find? (fun t => t.id == i) with
    | none => rw [hfind] at ht'; exact Or.inl ⟨t', ht', rfl, le_refl _⟩
    | some t0 =>
      rw [hfind] at ht'
      simp only at ht'
      rcases mem_updateFirst ht' with h | ⟨x, hx, _, rfl⟩
      · exact Or.inl ⟨t', h, rfl, le_refl _⟩
      · exact Or.inl ⟨x, hx, rfl, catRank_advance_mono x.category⟩
  | delete i =>
    simp only [applyOp, delete_task] at ht'
    cases hfind : st.db.tasks.find? (fun t => t.id == i) with
    | none => rw [hfind] at ht'; exact Or.inl ⟨t', ht', rfl, le_refl _⟩
    | some t0 =>
      rw [hfind] at ht'
      simp only at ht'
      exact Or.inl ⟨t', (List.eraseP_sublist st.db.tasks).mem ht', rfl, le_refl _⟩

theorem applyOp_nextTaskId_mono (st : AppState) (op : Op) :
    st.db.nextTaskId ≤ (applyOp st op).db.nextTaskId := by
  cases op with
  | add n o =>
    simp only [applyOp, add_task]
    by_cases hdup : st.db.tasks.any (fun t => t.name == n)
    · rw [if_pos hdup]
    · rw [if_neg hdup]; exact Nat.le_succ _
  | advance i =>
    simp only [applyOp, update_task]
    cases hfind : st.db.tasks.find? (fun t => t.id == i) <;> simp
  | delete i =>
    simp only [applyOp, delete_task]
    cases hfind : st.db.tasks.find? (fun t => t.id == i) <;> simp

theorem applyOp_wf (st : AppState) (op : Op) (h : tasksWf st.db) :
    tasksWf (applyOp st op).db := by
  obtain ⟨hnd, hlt⟩ := h
  cases op with
  | add n o =>
    simp only [applyOp, add_task]
    by_cases hdup : st.db.tasks.any (fun t => t.name == n)
    · rw [if_pos hdup]; exact ⟨hnd, hlt⟩
    · rw [if_neg hdup]
      constructor
      · simp only [List.map_append, List.map_cons, List.map_nil]
        rw [List.nodup_append]
        refine ⟨hnd, List.nodup_singleton _, ?_⟩
        intro a ha hb
        simp only [List.mem_singleton] at hb
        subst hb
        rcases List.mem_map.mp ha with ⟨t, ht, hta⟩
        exact absurd hta (Nat.ne_of_lt (hlt t ht))
      · intro t ht
        simp only [List.mem_append, List.mem_singleton] at ht
        rcases ht with ht | rfl
        · exact Nat.lt_succ_of_lt (hlt t ht)
        · exact Nat.lt_succ_self _
  | advance i =>
    simp only [applyOp, update_task]
    cases hfind : st.db.tasks.find? (fun t => t.id == i) with
    | none => exact ⟨hnd, hlt⟩
    | some t0 =>
      constructor
      · show (List.map Task.id (updateFirst (fun t => t.id == i)
          (fun t => { t with category := advanceCategory t.category })
          st.db.tasks)).Nodup
        rw [map_updateFirst Task.id (fun t => t.id == i)
          (fun t => { t with category := advanceCategory t.category })
          (fun x => rfl) st.db.tasks]
        exact hnd
      · intro t ht
        rcases mem_updateFirst ht with h | ⟨x, hx, _, rfl⟩
        · exact hlt t h
        · exact hlt x hx
  | delete i =>
    simp only [applyOp, delete_task]
    cases hfind : st.db.tasks.find? (fun t => t.id == i) with
    | none => exact ⟨hnd, hlt⟩
    | some t0 =>
      constructor
      · exact ((List.eraseP_sublist st.db.tasks).map Task.id).nodup hnd
      · intro t ht
        exact hlt t ((List.eraseP_sublist st.db.tasks).mem ht)

theorem runOps_back (ops : List Op) :
    ∀ (st : AppState), tasksWf st.db →
      ∀ t' ∈ (runOps st ops).db.tasks,
        (∃ t ∈ st.db.tasks, t.id = t'.id ∧
          catRank t.category ≤ catRank t'.category) ∨
        st.db.nextTaskId ≤ t'.id := by
  induction ops with
  | nil =>
    intro st _ t' ht'
    exact Or.inl ⟨t', ht', rfl, le_refl _⟩
  | cons op ops ih =>
    intro st hwf t' ht'
    simp only [runOps] at ht'
    rcases ih (applyOp st op) (applyOp_wf st op hwf) t' ht' with
      ⟨u, hu, hid, hle⟩ | hnew
    · rcases applyOp_back st op u hu with ⟨t, ht, hid', hle'⟩ | hnew'
      · exact Or.inl ⟨t, ht, Eq.trans hid' hid, hle'.trans hle⟩
      · exact Or.inr (hid ▸ hnew')
    · exact Or.inr (le_trans (applyOp_nextTaskId_mono st op) hnew)

/-! ### Claims -/

/-- C1: the advance operation maps category "To Do" to "DOING" and any other
category to "DONE"; starting from "To Do", the first advance yields "DOING",
the second "DONE", and every further advance leaves "DONE" (idempotent at
"DONE"); there is no three-way cycle back to "To Do" or "DOING". -/
theorem advance_two_branch_state_machine :
    (∀ c : String, advanceCategory c = if c = "To Do" then "DOING" else "DONE") ∧
    advanceCategory "To Do" = "DOING" ∧
    advanceCategory (advanceCategory "To Do") = "DONE" ∧
    advanceCategory (advanceCategory (advanceCategory "To Do")) = "DONE" ∧
    (∀ n : Nat, advanceCategory^[n] "DONE" = "DONE") ∧
    advanceCategory "DONE" ≠ "To Do" ∧ advanceCategory "DONE" ≠ "DOING" := by
  refine ⟨?_, by decide, by decide, by decide, ?_, by decide, by decide⟩
  · intro c
    unfold advanceCategory
    by_cases h : c = "To Do" <;> simp [h]
  · intro n
    induction n with
    | zero => rfl
    | succ n ih =>
      rw [Function.iterate_succ_apply, show advanceCategory "DONE" = "DONE" from by decide]
      exact ih

/-- C7: deleting a task id that is not in the store fails with
`NotFoundError` rather than succeeding silently, and the stored tasks are
unchanged by the failed request. -/
theorem delete_task_missing_id_fails (st : AppState) (i : Nat)
    (h : ∀ t ∈ st.db.tasks, t.id ≠ i) :
    delete_task i st = .error .NotFoundError ∧
    applyOp st (.delete i) = st ∧
    (applyOp st (.delete i)).db.tasks = st.db.tasks := by
  have hnone : st.db.tasks.find? (fun t => t.id == i) = none :=
    List.find?_eq_none.mpr (fun t ht => by simp [h t ht])
  have h1 : delete_task i st = .error .NotFoundError := by
    unfold delete_task
    rw [hnone]
  exact ⟨h1, by simp [applyOp, h1], by simp [applyOp, h1]⟩

theorem delete_task_missing_id_fails_witness :
    delete_task 7 emptyState = .error .NotFoundError ∧
    applyOp emptyState (.delete 7) = emptyState ∧
    (applyOp emptyState (.delete 7)).db.tasks = emptyState.db.tasks :=
  delete_task_missing_id_fails emptyState 7 (by decide)

/-- C8: advancing a task id that is not in the store fails with
`NotFoundError`, and every stored task's category is unchanged by the
failed request. -/
theorem update_task_missing_id_fails (st : AppState) (i : Nat)
    (h : ∀ t ∈ st.db.tasks, t.id ≠ i) :
    update_task i st = .error .NotFoundError ∧
    applyOp st (.advance i) = st ∧
    (applyOp st (.advance i)).db.tasks = st.db.tasks := by
  have hnone : st.db.tasks.find? (fun t => t.id == i) = none :=
    List.find?_eq_none.mpr (fun t ht => by simp [h t ht])
  have h1 : update_task i st = .error .NotFoundError := by
    unfold update_task
    rw [hnone]
  exact ⟨h1, by simp [applyOp, h1], by simp [applyOp, h1]⟩

theorem update_task_missing_id_fails_witness :
    update_task 7 emptyState = .error .NotFoundError ∧
    applyOp emptyState (.advance 7) = emptyState ∧
    (applyOp emptyState (.advance 7)).db.tasks = emptyState.db.tasks :=
  update_task_missing_id_fails emptyState 7 (by decide)

/-- C10: serving `GET /` (the home task-board listing) leaves the data
store entirely unchanged: every User row and every Task row is exactly as
it was before the request, as are the session and the flashed messages. -/
theorem home_leaves_store_unchanged (st : AppState) :
    (home st).2 = st ∧
    (home st).2.db.users = st.db.users ∧
    (home st).2.db.tasks = st.db.tasks ∧
    (home st).2.sessionUser = st.sessionUser ∧
    (home st).2.flashes = st.flashes :=
  ⟨rfl, rfl, rfl, rfl, rfl⟩

/-- C2: for any email, password and name such that no user with that email
is registered, `register` followed by `authenticate` with the same
credentials succeeds and returns a user whose email is the given email. -/
theorem register_then_authenticate_succeeds (st : AppState) (salt : Nat)
    (email pw nm : String)
    (hfresh : ∀ u ∈ st.db.users, u.email ≠ email) :
    ∃ u : User,
      authenticate ((register salt email pw nm st).2).db email pw =
        .ok u ∧
      u.email = email := by
  have hnone : st.db.users.find? (fun u => u.email == email) = none :=
    List.find?_eq_none.mpr (fun u hu => by simp [hfresh u hu])
  refine ⟨{ id := st.db.nextUserId, email := email,
            password := generate_password_hash salt pw, name := nm }, ?_, rfl⟩
  have hreg : (register salt email pw nm st).2.db.users =
      st.db.users ++
        [User.mk st.db.nextUserId email (generate_password_hash salt pw) nm] := by
    simp [register, hnone]
  unfold authenticate
  rw [hreg, List.find?_append, hnone, Option.none_or,
    List.find?_cons_of_pos _ (by simp)]
  simp [check_password_hash, generate_password_hash]

theorem register_then_authenticate_succeeds_witness :
    ∃ u : User,
      authenticate ((register 7 "x@y" "secret" "X" emptyState).2).db
        "x@y" "secret" = .ok u ∧
      u.email = "x@y" :=
  register_then_authenticate_succeeds emptyState 7 "x@y" "secret" "X"
    (by decide)

/-- C4: two `add` requests with the same task name — the second fails with
`DuplicateNameError` even when the owner identifiers differ: task-name
uniqueness is global across all users, not per owner. -/
theorem add_task_duplicate_name_global (st : AppState) (nm : String)
    (o1 o2 : Nat) (r : Response) (st1 : AppState)
    (h : add_task nm o1 st = .ok (r, st1)) :
    add_task nm o2 st1 = .error .DuplicateNameError := by
  unfold add_task at h ⊢
  by_cases hdup : st.db.tasks.any (fun t => t.name == nm)
  · rw [if_pos hdup] at h
    cases h
  · rw [if_neg hdup] at h
    simp only [Except.ok.injEq, Prod.mk.injEq] at h
    obtain ⟨-, hst⟩ := h
    subst hst
    rw [if_pos (by simp)]

theorem add_task_duplicate_name_global_witness :
    add_task "Buy milk" 2
      ((applyOp emptyState (.add "Buy milk" 1))) =
      .error .DuplicateNameError := by
  have h : add_task "Buy milk" 1 emptyState = .ok (.redirect "home",
      applyOp emptyState (.add "Buy milk" 1)) := by decide
  exact add_task_duplicate_name_global emptyState "Buy milk" 1 2
    (.redirect "home") (applyOp emptyState (.add "Buy milk" 1)) h

/-- C5: `register` with an email already present completes with the
recoverable duplicate-email notice and a re-rendered form, creates no new
User row (the whole store is unchanged, and the session is untouched), and
the store still contains exactly one User with that email. -/
theorem register_duplicate_email_unchanged (st : AppState) (salt : Nat)
    (email pw nm : String) (u : User)
    (hu : u ∈ st.db.users) (hemail : u.email = email)
    (hnd : (st.db.users.map User.email).Nodup) :
    (register salt email pw nm st).1 = .render "register.html" ∧
    (register salt email pw nm st).2.db = st.db ∧
    (register salt email pw nm st).2.sessionUser = st.sessionUser ∧
    (register salt email pw nm st).2.flashes = st.flashes ++
      ["You've already signed up with that email, log in instead!"] ∧
    ((register salt email pw nm st).2.db.users.filter
      (fun v => v.email == email)).length = 1 := by
  subst hemail
  have hfind : st.db.users.find? (fun v => v.email == u.email) = some u :=
    find?_key_unique User.email hnd hu
  have hfilter : st.db.users.filter (fun v => v.email == u.email) = [u] :=
    filter_key_unique User.email hnd hu
  refine ⟨?_, ?_, ?_, ?_, ?_⟩ <;> simp [register, hfind, hfilter]

theorem register_duplicate_email_unchanged_witness :
    (register 9 "a@b" "other" "B" sampleState).1 = .render "register.html" ∧
    (register 9 "a@b" "other" "B" sampleState).2.db = sampleState.db ∧
    (register 9 "a@b" "other" "B" sampleState).2.sessionUser =
      sampleState.sessionUser ∧
    (register 9 "a@b" "other" "B" sampleState).2.flashes =
      sampleState.flashes ++
      ["You've already signed up with that email, log in instead!"] ∧
    ((register 9 "a@b" "other" "B" sampleState).2.db.users.filter
      (fun v => v.email == "a@b")).length = 1 :=
  register_duplicate_email_unchanged sampleState 9 "a@b" "other" "B"
    sampleUserA (by decide) (by decide) (by decide)

/-- C3: authenticating with an email matching no user fails with
`UnknownEmailError`; authenticating as a registered user with any password
whose hash does not verify against the stored hash fails with
`InvalidPasswordError` and never succeeds; the two failures flash distinct
user-visible notices and neither authenticates the session. -/
theorem authenticate_failure_modes (st : AppState) (pw : String) :
    (∀ email : String, (∀ u ∈ st.db.users, u.email ≠ email) →
      authenticate st.db email pw = .error .UnknownEmailError ∧
      (login email pw st).2.sessionUser = st.sessionUser ∧
      (login email pw st).2.flashes = st.flashes ++
        ["That email does not exist, please try again."]) ∧
    (∀ u : User, (st.db.users.map User.email).Nodup → u ∈ st.db.users →
      check_password_hash u.password pw = false →
      authenticate st.db u.email pw = .error .InvalidPasswordError ∧
      (∀ v : User, authenticate st.db u.email pw ≠ .ok v) ∧
      (login u.email pw st).2.sessionUser = st.sessionUser ∧
      (login u.email pw st).2.flashes = st.flashes ++
        ["Password incorrect, please try again!"]) ∧
    ("That email does not exist, please try again." ≠
      "Password incorrect, please try again!") := by
  refine ⟨?_, ?_, by decide⟩
  · intro email hfresh
    have hnone : st.db.users.find? (fun u => u.email == email) = none :=
      List.find?_eq_none.mpr (fun u hu => by simp [hfresh u hu])
    have hauth : authenticate st.db email pw = .error .UnknownEmailError := by
      unfold authenticate
      rw [hnone]
    exact ⟨hauth, by simp [login, hauth], by simp [login, hauth]⟩
  · intro u hnd hu hcheck
    have hfind : st.db.users.find? (fun v => v.email == u.email) = some u :=
      find?_key_unique User.email hnd hu
    have hauth : authenticate st.db u.email pw =
        .error .InvalidPasswordError := by
      unfold authenticate
      rw [hfind]
      simp [hcheck]
    refine ⟨hauth, ?_, by simp [login, hauth], by simp [login, hauth]⟩
    intro v hv
    rw [hauth] at hv
    cases hv

theorem authenticate_failure_modes_witness :
    authenticate sampleState.db "zz" "wrong" = .error .UnknownEmailError ∧
    authenticate sampleState.db sampleUserA.email "wrong" =
      .error .InvalidPasswordError :=
  ⟨((authenticate_failure_modes sampleState "wrong").1 "zz" (by decide)).1,
   ((authenticate_failure_modes sampleState "wrong").2.1 sampleUserA
      (by decide) (by decide) (by decide)).1⟩

/-- C6: the home board query returns every task in the store — the result
is a permutation of the Tasks table — sorted ascending on the owner
identifier, and any two tasks with equal owner identifier keep their
insertion (creation) order. -/
theorem home_listing_sorted_stable (st : AppState) :
    ((home st).1).Perm st.db.tasks ∧
    ((home st).1).Pairwise (fun a b => ownerLe a.owner_id b.owner_id) ∧
    (∀ a b : Task, [a, b].Sublist st.db.tasks → a.owner_id = b.owner_id →
      [a, b].Sublist (home st).1) := by
  refine ⟨?_, ?_, ?_⟩
  · exact List.mergeSort_perm st.db.tasks _
  · exact List.sorted_mergeSort
      (fun a b c => ownerLe_trans a.owner_id b.owner_id c.owner_id)
      (fun a b => ownerLe_total a.owner_id b.owner_id) st.db.tasks
  · intro a b hsub howner
    refine List.sublist_mergeSort
      (fun a b c => ownerLe_trans a.owner_id b.owner_id c.owner_id)
      (fun a b => ownerLe_total a.owner_id b.owner_id) ?_ hsub
    refine List.pairwise_cons.mpr ⟨?_, List.pairwise_singleton _ _⟩
    intro b' hb'
    rw [List.mem_singleton] at hb'
    subst hb'
    rw [howner]
    exact ownerLe_refl b'.owner_id

theorem home_listing_sorted_stable_witness :
    [Task.mk 1 (some 5) "t1" "To Do", Task.mk 2 (some 5) "t2" "DONE"].Sublist
      (home (AppState.mk (DB.mk []
        [Task.mk 1 (some 5) "t1" "To Do", Task.mk 2 (some 5) "t2" "DONE"]
        1 3) none [])).1 :=
  (home_listing_sorted_stable (AppState.mk (DB.mk []
      [Task.mk 1 (some 5) "t1" "To Do", Task.mk 2 (some 5) "t2" "DONE"]
      1 3) none [])).2.2
    (Task.mk 1 (some 5) "t1" "To Do") (Task.mk 2 (some 5) "t2" "DONE")
    (by decide) (by decide)

/-- C9: under every sequence of add, advance and delete requests, no task's
category moves backward in the order "To Do" < "DOING" < "DONE": a task
found in the store after the sequence with the same id as a task present
before it has a category of rank at least the earlier one's. -/
theorem no_backward_category_movement (st : AppState) (ops : List Op)
    (hwf : tasksWf st.db) (t t' : Task)
    (ht : t ∈ st.db.tasks) (ht' : t' ∈ (runOps st ops).db.tasks)
    (hid : t'.id = t.id) :
    catRank t.category ≤ catRank t'.category := by
  rcases runOps_back ops st hwf t' ht' with ⟨u, hu, huid, hle⟩ | hnew
  · have hut : u = t :=
      List.inj_on_of_nodup_map hwf.1 hu ht (huid.trans hid)
    exact hut ▸ hle
  · exfalso
    have hlt := hwf.2 t ht
    rw [hid] at hnew
    omega

theorem no_backward_category_movement_witness :
    catRank (Task.mk 1 (some 1) "t1" "To Do").category ≤
      catRank (Task.mk 1 (some 1) "t1" "DONE").category :=
  no_backward_category_movement sampleTaskState [.advance 1, .advance 1]
    (by decide) (Task.mk 1 (some 1) "t1" "To Do")
    (Task.mk 1 (some 1) "t1" "DONE") (by decide) (by decide) (by decide)

end Todo
